import Mathlib

/-!
Shallow embedding of the `news_scraper` repository core, for checking the
natural-language specification against the code.

The definitions below are translated from the Python sources:
  - `scraper_models.py` / `news_data.py` : `ScrapingRule`, `NewsRSSEntry`,
    `_compute_score_by_rule`, `set_rules`, `total_score`,
    `get_target_news_by_scraping_rules`;
  - `collect_news_to_db.py` : `_scrape_registered_news_by_rss`;
  - `rss_feed_parsers.py` : `GoogleFeedParser._get_description`;
  - `local_news_parsers.py` : `HtmlNewsParser.get_news_content` and the
    domain-specific subclasses.

Python strings are modelled as Lean `String`, Python `set`/`dict` values as
lists (a `dict` as an association list updated in place, which is the Python
observable insertion-order semantics), and Python exceptions as `Except`.
-/

/-! ## String primitives: Python `sub in s` and `s.count(sub)` -/

/-- Python `sub in s` (substring containment) on a string `s`. -/
def strContains (s sub : String) : Bool :=
  decide (sub.toList <:+: s.toList)

/-- Auxiliary scan for Python `str.count`: counts non-overlapping occurrences
of a nonempty pattern `sub`, scanning left to right and skipping the length of
the pattern after each match, exactly as CPython does. -/
def countOccAux (sub : List Char) : List Char → Nat
  | [] => 0
  | c :: rest =>
    if sub.isPrefixOf (c :: rest) then
      1 + countOccAux sub (List.drop (sub.length - 1) rest)
    else
      countOccAux sub rest
termination_by l => l.length
decreasing_by
  · simp only [List.length_drop, List.length_cons]
    omega
  · simp

/-- Python `s.count(sub)`: number of non-overlapping occurrences of `sub` in
`s`; for the empty pattern CPython returns `len(s) + 1`. -/
def pyCount (s sub : String) : Nat :=
  if sub.toList.isEmpty then s.toList.length + 1
  else countOccAux sub.toList s.toList

theorem countOccAux_eq_zero_iff (sub : List Char) (hsub : sub ≠ []) :
    ∀ l : List Char, (countOccAux sub l = 0 ↔ ¬ sub <:+: l)
  | [] => by
    rw [countOccAux]
    simp [List.infix_nil, hsub]
  | c :: rest => by
    rw [countOccAux]
    by_cases hp : sub.isPrefixOf (c :: rest)
    · simp only [hp, if_true]
      have hpre : sub <+: c :: rest := List.isPrefixOf_iff_prefix.mp hp
      constructor
      · omega
      · intro h
        exact absurd hpre.isInfix h
    · rw [if_neg hp]
      rw [countOccAux_eq_zero_iff sub hsub rest]
      rw [List.infix_cons_iff]
      constructor
      · intro h hor
        rcases hor with hpre | htail
        · exact hp (List.isPrefixOf_iff_prefix.mpr hpre)
        · exact h htail
      · intro h ht
        exact h (Or.inr ht)
termination_by l => l.length
decreasing_by
  · simp

/-- Python `s.count(sub) == 0` exactly when `sub` is not a substring of `s`
(`sub in s` is false): the two Python idioms used by the scoring code agree. -/
theorem pyCount_eq_zero_iff (s sub : String) :
    pyCount s sub = 0 ↔ strContains s sub = false := by
  unfold pyCount strContains
  by_cases h : sub.toList.isEmpty
  · simp only [h, if_true]
    rw [List.isEmpty_iff] at h
    rw [h]
    simp [List.nil_infix]
  · rw [if_neg h]
    rw [List.isEmpty_iff] at h
    rw [countOccAux_eq_zero_iff sub.toList h s.toList]
    simp

/-! ## Data model: `ScrapingRule` and `NewsRSSEntry` (`scraper_models.py`) -/

/-- Model of `ScrapingRule` from `scraper_models.py`: a named relevance filter.  The
Python keyword containers are `set`s; they are modelled as lists (scoring is
order-independent, see the theorems below). -/
structure ScrapingRule where
  name : String
  included_keywords : List String
  excluded_keywords : List String
  tags : List String
  active : Bool := true
deriving DecidableEq, Repr

/-- Model of `NewsRSSEntry` from `scraper_models.py` / `news_data.py`.  The Python
`rule_score_map` dict is modelled as an association list updated in place
(insertion order preserved, keys updated where they sit), and the `tags` set
as a duplicate-free-by-construction list. -/
structure NewsRSSEntry where
  title : String
  description : String
  link : String
  published_time : Int
  source : String
  rule_score_map : List (ScrapingRule × Int) := []
  tags : List String := []
deriving DecidableEq, Repr

/-! ## Scoring engine (`NewsRSSEntry._compute_score_by_rule`) -/

/-- The excluded-keyword loop of `_compute_score_by_rule`:
`for keyword in rule.excluded_keywords: if keyword in self.title: score -= 10`. -/
def excludedPenalty (title : String) (excluded : List String) : Int :=
  excluded.foldl (fun s kw => if strContains title kw then s - 10 else s) 0

/-- One iteration of the included-keyword loop of `_compute_score_by_rule`:
the accumulator carries `(score, contains_all_keywords)`. -/
def includedStep (title description : String) (p : Int × Bool) (kw : String) :
    Int × Bool :=
  let tcount := pyCount title kw
  let dcount := pyCount description kw
  let s1 := if tcount > 0 then p.1 + (tcount : Int) * 10 else p.1
  let s2 := if dcount > 0 then s1 + (dcount : Int) * 1 else s1
  let all := if tcount = 0 ∧ dcount = 0 then false else p.2
  (s2, all)

/-- Model of `NewsRSSEntry._compute_score_by_rule` (`scraper_models.py` lines 128-164):
subtract 10 per excluded keyword found in the title; if the result is
negative, return it at once; otherwise add 10 per title occurrence and 1 per
description occurrence of every included keyword, and force the score to 0
when some included keyword occurred in neither. -/
def computeScoreByRule (title description : String) (rule : ScrapingRule) : Int :=
  let score := excludedPenalty title rule.excluded_keywords
  if score < 0 then
    score
  else
    let r := rule.included_keywords.foldl (includedStep title description) (score, true)
    if r.2 then r.1 else 0

/-! ## `set_rules`, tags, `total_score`, target selection -/

/-- Python `self.rule_score_map[rule] = score` on the association-list model of
a dict: update every binding of the key in place, else append at the end. -/
def dictSet (m : List (ScrapingRule × Int)) (k : ScrapingRule) (v : Int) :
    List (ScrapingRule × Int) :=
  if m.any (fun p => decide (p.1 = k)) then
    m.map (fun p => if p.1 = k then (k, v) else p)
  else
    m ++ [(k, v)]

/-- Python `tags.update(new)` (set union) on the list model of a set. -/
def setUnion (tags newTags : List String) : List String :=
  tags ++ newTags.filter (fun t => !(tags.contains t))

/-- Model of `NewsRSSEntry._set_tags_from_rule`: union the rule tags in iff the score
is strictly positive. -/
def setTagsFromRule (e : NewsRSSEntry) (rule : ScrapingRule) (score : Int) :
    NewsRSSEntry :=
  if score > 0 then { e with tags := setUnion e.tags rule.tags } else e

/-- One iteration of the `set_rules` loop: compute the score, store it in
`rule_score_map`, update tags. -/
def applyRule (e : NewsRSSEntry) (rule : ScrapingRule) : NewsRSSEntry :=
  let score := computeScoreByRule e.title e.description rule
  setTagsFromRule
    { e with rule_score_map := dictSet e.rule_score_map rule score }
    rule score

/-- Model of `NewsRSSEntry.set_rules` (`scraper_models.py` lines 93-110). -/
def setRules (e : NewsRSSEntry) (rules : List ScrapingRule) : NewsRSSEntry :=
  rules.foldl applyRule e

/-- The value computed by the `total_score` property: sum of the strictly
positive scores among the dict values. -/
def totalScore (m : List (ScrapingRule × Int)) : Int :=
  ((m.map Prod.snd).filter (fun s => decide (s > 0))).sum

/-- Value of the `NewsRSSEntry.total_score` property. -/
def NewsRSSEntry.total_score (e : NewsRSSEntry) : Int :=
  totalScore e.rule_score_map

/-- Model of `NewsRSSEntry.total_score` with its logging side effect made explicit:
the property first emits one warning when `rule_score_map` is empty, then
returns the sum of positive scores.  The second component is the list of
warnings emitted by the call. -/
def totalScoreWithLog (e : NewsRSSEntry) : Int × List String :=
  ( totalScore e.rule_score_map,
    if e.rule_score_map.isEmpty then
      ["No scraping rule set for <NewsRSSEntry \x27" ++ e.title ++ "\x27>"]
    else [] )

/-- Model of `get_target_news_by_scraping_rules` (`news_data.py` lines 11-14): yield
exactly the entries whose `total_score` is strictly positive.  The
`scraping_rules` parameter is kept because the source function takes it. -/
def get_target_news_by_scraping_rules (news_entries : List NewsRSSEntry)
    (scraping_rules : List ScrapingRule) : List NewsRSSEntry :=
  news_entries.filter (fun news => decide (news.total_score > 0))

/-! ## Lemmas about the scoring engine -/

theorem excludedPenalty_foldl (title : String) (l : List String) (a : Int) :
    l.foldl (fun s kw => if strContains title kw then s - 10 else s) a =
      a - 10 * ((l.filter (fun kw => strContains title kw)).length : Int) := by
  induction l generalizing a with
  | nil => simp
  | cons kw rest ih =>
    by_cases h : strContains title kw
    · rw [List.foldl_cons, if_pos h, ih, List.filter_cons_of_pos h]
      simp only [List.length_cons]
      push_cast
      ring
    · rw [List.foldl_cons, if_neg h, ih, List.filter_cons_of_neg h]

/-- The excluded-keyword loop subtracts exactly 10 per excluded keyword found
in the title. -/
theorem excludedPenalty_eq (title : String) (l : List String) :
    excludedPenalty title l =
      -(10 * ((l.filter (fun kw => strContains title kw)).length : Int)) := by
  unfold excludedPenalty
  rw [excludedPenalty_foldl]
  ring

/-- When the penalty is negative, `_compute_score_by_rule` returns it at once
without looking at the included keywords. -/
theorem computeScoreByRule_of_penalty_neg (title description : String)
    (rule : ScrapingRule)
    (h : excludedPenalty title rule.excluded_keywords < 0) :
    computeScoreByRule title description rule =
      excludedPenalty title rule.excluded_keywords := by
  unfold computeScoreByRule
  rw [if_pos h]

/-- When the penalty is not negative, `_compute_score_by_rule` runs the
included-keyword loop and applies the `contains_all_keywords` reset. -/
theorem computeScoreByRule_of_penalty_nonneg (title description : String)
    (rule : ScrapingRule)
    (h : ¬ excludedPenalty title rule.excluded_keywords < 0) :
    computeScoreByRule title description rule =
      (if (rule.included_keywords.foldl (includedStep title description)
            (excludedPenalty title rule.excluded_keywords, true)).2 then
        (rule.included_keywords.foldl (includedStep title description)
          (excludedPenalty title rule.excluded_keywords, true)).1
      else 0) := by
  unfold computeScoreByRule
  rw [if_neg h]

/-- The flag `contains_all_keywords` is never reset back to `True`: once `False`, the
included-keyword loop keeps it `False`. -/
theorem includedFold_false_stays (title description : String) (l : List String) :
    ∀ init : Int × Bool, init.2 = false →
      (l.foldl (includedStep title description) init).2 = false := by
  induction l with
  | nil => intro init h; simpa using h
  | cons kw rest ih =>
    intro init h
    rw [List.foldl_cons]
    apply ih
    unfold includedStep
    simp only [h]
    split <;> rfl

/-- If some included keyword occurs in neither the title nor the description,
the included-keyword loop ends with `contains_all_keywords = False`. -/
theorem includedFold_false_of_missing (title description : String)
    (l : List String) :
    ∀ init : Int × Bool,
      (∃ kw ∈ l, pyCount title kw = 0 ∧ pyCount description kw = 0) →
      (l.foldl (includedStep title description) init).2 = false := by
  induction l with
  | nil =>
    intro init h
    obtain ⟨kw, hmem, _⟩ := h
    exact absurd hmem (List.not_mem_nil kw)
  | cons kw rest ih =>
    intro init h
    rw [List.foldl_cons]
    obtain ⟨w, hmem, hw⟩ := h
    rcases List.mem_cons.mp hmem with heq | htail
    · apply includedFold_false_stays
      unfold includedStep
      subst heq
      simp [hw.1, hw.2]
    · exact ih _ ⟨w, htail, hw⟩

/-! ## C1 and C2: per-rule scoring -/

/-- C1: if any excluded keyword of a rule occurs as a substring of the entry
title, the per-rule score equals minus 10 times the number of matching
excluded keywords, is at most -10 (hence strictly negative and never
positive), and is computed without consulting the included keywords at all:
replacing `included_keywords` by any other set leaves the score unchanged. -/
theorem excluded_keyword_is_absolute_veto (title description : String)
    (rule : ScrapingRule)
    (h : ∃ kw ∈ rule.excluded_keywords, strContains title kw = true) :
    computeScoreByRule title description rule =
        -(10 * ((rule.excluded_keywords.filter
            (fun kw => strContains title kw)).length : Int)) ∧
    computeScoreByRule title description rule ≤ -10 ∧
    ∀ inc : List String,
      computeScoreByRule title description
          { rule with included_keywords := inc } =
        computeScoreByRule title description rule := by
  obtain ⟨kw, hmem, hkw⟩ := h
  have hfil : kw ∈ rule.excluded_keywords.filter (fun kw => strContains title kw) :=
    List.mem_filter.mpr ⟨hmem, hkw⟩
  have hlen : 0 <
      (rule.excluded_keywords.filter (fun kw => strContains title kw)).length :=
    List.length_pos_of_mem hfil
  have hlen1 : (1 : Int) ≤
      ((rule.excluded_keywords.filter (fun kw => strContains title kw)).length : Int) := by
    exact_mod_cast hlen
  have hpen : excludedPenalty title rule.excluded_keywords =
      -(10 * ((rule.excluded_keywords.filter
          (fun kw => strContains title kw)).length : Int)) :=
    excludedPenalty_eq title rule.excluded_keywords
  have hneg : excludedPenalty title rule.excluded_keywords < 0 := by
    rw [hpen]
    linarith
  have hval : computeScoreByRule title description rule =
      -(10 * ((rule.excluded_keywords.filter
          (fun kw => strContains title kw)).length : Int)) := by
    rw [computeScoreByRule_of_penalty_neg title description rule hneg, hpen]
  refine ⟨hval, ?_, ?_⟩
  · rw [hval]
    linarith
  · intro inc
    rw [computeScoreByRule_of_penalty_neg title description rule hneg]
    rw [computeScoreByRule_of_penalty_neg title description
      { rule with included_keywords := inc } hneg]

/-- Witness for `excluded_keyword_is_absolute_veto` at the spec example: rule
politics with include [election], exclude [sports], title containing both. -/
theorem excluded_keyword_is_absolute_veto_witness :
    computeScoreByRule "Election results and sports recap" ""
        ⟨"politics", ["election"], ["sports"], [], true⟩ = -(10 * (1 : Int)) ∧
    computeScoreByRule "Election results and sports recap" ""
        ⟨"politics", ["election"], ["sports"], [], true⟩ ≤ -10 := by
  have h := excluded_keyword_is_absolute_veto "Election results and sports recap"
    "" ⟨"politics", ["election"], ["sports"], [], true⟩
    ⟨"sports", by decide, by decide⟩
  refine ⟨?_, h.2.1⟩
  have h1 := h.1
  rw [h1]
  decide

/-- C2: when no excluded keyword matches the title and at least one included
keyword occurs in neither the title nor the description, the per-rule score
is exactly 0. -/
theorem unmatched_included_keyword_scores_zero (title description : String)
    (rule : ScrapingRule)
    (hexc : ∀ kw ∈ rule.excluded_keywords, strContains title kw = false)
    (hmiss : ∃ kw ∈ rule.included_keywords,
      strContains title kw = false ∧ strContains description kw = false) :
    computeScoreByRule title description rule = 0 := by
  have hfil : rule.excluded_keywords.filter (fun kw => strContains title kw) = [] := by
    rw [List.filter_eq_nil_iff]
    intro kw hkw
    simp [hexc kw hkw]
  have hpen : excludedPenalty title rule.excluded_keywords = 0 := by
    rw [excludedPenalty_eq, hfil]
    simp
  have hnn : ¬ excludedPenalty title rule.excluded_keywords < 0 := by
    rw [hpen]
    omega
  rw [computeScoreByRule_of_penalty_nonneg title description rule hnn]
  have hfalse : (rule.included_keywords.foldl (includedStep title description)
      (excludedPenalty title rule.excluded_keywords, true)).2 = false := by
    apply includedFold_false_of_missing
    obtain ⟨kw, hmem, h1, h2⟩ := hmiss
    exact ⟨kw, hmem, (pyCount_eq_zero_iff title kw).mpr h1,
      (pyCount_eq_zero_iff description kw).mpr h2⟩
  rw [hfalse]
  simp

/-- Witness for `unmatched_included_keyword_scores_zero` at the spec example:
rule tech with include [AI, chip] against title "Stock market rally". -/
theorem unmatched_included_keyword_scores_zero_witness :
    computeScoreByRule "Stock market rally" ""
      ⟨"tech", ["AI", "chip"], [], [], true⟩ = 0 := by
  exact unmatched_included_keyword_scores_zero "Stock market rally" ""
    ⟨"tech", ["AI", "chip"], [], [], true⟩
    (by intro kw hkw; simp at hkw)
    ⟨"AI", by decide, by decide, by decide⟩

/-! ## Lemmas about `total_score` -/

theorem totalScore_cons (p : ScrapingRule × Int) (m : List (ScrapingRule × Int)) :
    totalScore (p :: m) = (if p.2 > 0 then p.2 else 0) + totalScore m := by
  unfold totalScore
  rw [List.map_cons]
  by_cases h : p.2 > 0
  · rw [List.filter_cons_of_pos (by simpa using h), List.sum_cons, if_pos h]
  · rw [List.filter_cons_of_neg (by simpa using h), if_neg h]
    omega

theorem totalScore_append (m1 m2 : List (ScrapingRule × Int)) :
    totalScore (m1 ++ m2) = totalScore m1 + totalScore m2 := by
  unfold totalScore
  rw [List.map_append, List.filter_append, List.sum_append]

/-! ## C3: `total_score` is the sum of the strictly positive scores -/

theorem totalScore_filter_pos (m : List (ScrapingRule × Int)) :
    totalScore m = ((m.filter (fun p => decide (p.2 > 0))).map Prod.snd).sum := by
  induction m with
  | nil => simp [totalScore]
  | cons p m ih =>
    by_cases h : p.2 > 0
    · rw [totalScore_cons, if_pos h, List.filter_cons_of_pos (by simpa using h),
        List.map_cons, List.sum_cons, ih]
    · rw [totalScore_cons, if_neg h, List.filter_cons_of_neg (by simpa using h), ih]
      omega

theorem totalScore_dictSet_nonpos (m : List (ScrapingRule × Int))
    (r : ScrapingRule) (s : Int) (hs : s ≤ 0)
    (hvals : ∀ p ∈ m, p.1 = r → p.2 = s) :
    totalScore (dictSet m r s) = totalScore m := by
  unfold dictSet
  by_cases hmem : m.any (fun p => decide (p.1 = r))
  · rw [if_pos hmem]
    have hmap : (m.map (fun p => if p.1 = r then (r, s) else p)) =
        m.map (fun p => (p.1, p.2)) := by
      apply List.map_congr_left
      intro p hp
      by_cases hk : p.1 = r
      · rw [if_pos hk, hvals p hp hk, hk]
      · rw [if_neg hk]
    rw [hmap]
    simp
  · rw [if_neg hmem, totalScore_append, totalScore_cons]
    rw [if_neg (by omega)]
    unfold totalScore
    simp

theorem totalScore_filter_ne (m : List (ScrapingRule × Int)) (r : ScrapingRule)
    (hnp : ∀ p ∈ m, p.1 = r → p.2 ≤ 0) :
    totalScore (m.filter (fun p => decide (¬ p.1 = r))) = totalScore m := by
  induction m with
  | nil => simp
  | cons p m ih =>
    have hm : ∀ q ∈ m, q.1 = r → q.2 ≤ 0 :=
      fun q hq => hnp q (List.mem_cons_of_mem p hq)
    by_cases hk : p.1 = r
    · have hple : p.2 ≤ 0 := hnp p (List.mem_cons_self p m) hk
      rw [List.filter_cons_of_neg (by simp [hk]), totalScore_cons,
        if_neg (by omega), ih hm]
      omega
    · rw [List.filter_cons_of_pos (by simp [hk]), totalScore_cons,
        totalScore_cons, ih hm]

/-- C3: `total_score` equals the sum of exactly the strictly positive per-rule
scores, and it is invariant under adding (via the dict-assignment used by
`set_rules`) or removing a rule whose score is 0 or negative. -/
theorem total_score_sums_positive_scores (e : NewsRSSEntry) (r : ScrapingRule)
    (s : Int) :
    e.total_score =
        ((e.rule_score_map.filter (fun p => decide (p.2 > 0))).map Prod.snd).sum ∧
    (s ≤ 0 → (∀ p ∈ e.rule_score_map, p.1 = r → p.2 = s) →
      totalScore (dictSet e.rule_score_map r s) = e.total_score) ∧
    ((∀ p ∈ e.rule_score_map, p.1 = r → p.2 ≤ 0) →
      totalScore (e.rule_score_map.filter (fun p => decide (¬ p.1 = r))) =
        e.total_score) :=
  ⟨totalScore_filter_pos e.rule_score_map,
   fun hs hvals => totalScore_dictSet_nonpos e.rule_score_map r s hs hvals,
   fun hnp => totalScore_filter_ne e.rule_score_map r hnp⟩

/-- Witness for `total_score_sums_positive_scores`: a two-rule map with one
positive and one negative score; adding or dropping the negative rule leaves
the total at 5. -/
theorem total_score_sums_positive_scores_witness :
    totalScore (dictSet [(⟨"a", [], [], [], true⟩, (5 : Int)),
        (⟨"b", [], [], [], true⟩, (-10 : Int))] ⟨"b", [], [], [], true⟩ (-10)) =
      NewsRSSEntry.total_score
        ⟨"t", "d", "l", 0, "google",
          [(⟨"a", [], [], [], true⟩, 5), (⟨"b", [], [], [], true⟩, -10)], []⟩ := by
  exact (total_score_sums_positive_scores
    ⟨"t", "d", "l", 0, "google",
      [(⟨"a", [], [], [], true⟩, 5), (⟨"b", [], [], [], true⟩, -10)], []⟩
    ⟨"b", [], [], [], true⟩ (-10)).2.1 (by decide) (by decide)

/-! ## C4 and C10: target selection -/

/-- C4: an entry is in the target output iff it is among the scored entries
and its `total_score` is strictly positive; in particular no entry with
`total_score = 0` is ever yielded. -/
theorem target_selection_iff (news_entries : List NewsRSSEntry)
    (scraping_rules : List ScrapingRule) (e : NewsRSSEntry) :
    e ∈ get_target_news_by_scraping_rules news_entries scraping_rules ↔
      e ∈ news_entries ∧ e.total_score > 0 := by
  unfold get_target_news_by_scraping_rules
  simp [List.mem_filter]

/-- Witness for `target_selection_iff`: an entry with one positive rule score
is yielded by the target selection. -/
theorem target_selection_iff_witness :
    (⟨"t", "d", "l", 0, "google", [(⟨"r", [], [], [], true⟩, 3)], []⟩ :
        NewsRSSEntry) ∈
      get_target_news_by_scraping_rules
        [⟨"t", "d", "l", 0, "google", [(⟨"r", [], [], [], true⟩, 3)], []⟩] [] := by
  exact (target_selection_iff _ _ _).mpr ⟨by simp, by decide⟩

/-- C10 (implicit): `get_target_news_by_scraping_rules` ignores its
`scraping_rules` argument entirely: any two rule sets select the same
entries. -/
theorem target_selection_ignores_rules (news_entries : List NewsRSSEntry)
    (r1 r2 : List ScrapingRule) :
    get_target_news_by_scraping_rules news_entries r1 =
      get_target_news_by_scraping_rules news_entries r2 := rfl

/-! ## C8: `total_score` on an empty rule map -/

/-- C8: on an entry whose `rule_score_map` is empty, the `total_score`
property returns 0 and emits exactly one warning, and does not raise. -/
theorem empty_rule_map_scores_zero_with_one_warning (e : NewsRSSEntry)
    (h : e.rule_score_map = []) :
    totalScoreWithLog e =
      (0, ["No scraping rule set for <NewsRSSEntry \x27" ++ e.title ++ "\x27>"]) ∧
    (totalScoreWithLog e).2.length = 1 := by
  unfold totalScoreWithLog totalScore
  rw [h]
  simp

/-- Witness for `empty_rule_map_scores_zero_with_one_warning` on a concrete
entry with no rules set. -/
theorem empty_rule_map_scores_zero_with_one_warning_witness :
    totalScoreWithLog ⟨"t", "d", "l", 0, "google", [], []⟩ =
      (0, ["No scraping rule set for <NewsRSSEntry \x27t\x27>"]) := by
  exact (empty_rule_map_scores_zero_with_one_warning
    ⟨"t", "d", "l", 0, "google", [], []⟩ rfl).1

/-! ## Lemmas about `dictSet` and `setUnion` (towards C5) -/

theorem dictSet_exists_key (m : List (ScrapingRule × Int)) (k : ScrapingRule)
    (v : Int) : ∃ p ∈ dictSet m k v, p.1 = k := by
  unfold dictSet
  by_cases hmem : m.any (fun p => decide (p.1 = k))
  · rw [if_pos hmem]
    rw [List.any_eq_true] at hmem
    obtain ⟨p, hp, hpk⟩ := hmem
    rw [decide_eq_true_eq] at hpk
    exact ⟨(k, v), List.mem_map.mpr ⟨p, hp, by rw [if_pos hpk]⟩, rfl⟩
  · rw [if_neg hmem]
    exact ⟨(k, v), by simp, rfl⟩

theorem dictSet_key_val (m : List (ScrapingRule × Int)) (k : ScrapingRule)
    (v : Int) : ∀ p ∈ dictSet m k v, p.1 = k → p.2 = v := by
  intro p hp hpk
  unfold dictSet at hp
  by_cases hmem : m.any (fun p => decide (p.1 = k))
  · rw [if_pos hmem] at hp
    obtain ⟨q, hq, hqe⟩ := List.mem_map.mp hp
    by_cases hqk : q.1 = k
    · rw [if_pos hqk] at hqe
      rw [← hqe]
    · rw [if_neg hqk] at hqe
      rw [← hqe] at hpk
      exact absurd hpk hqk
  · rw [if_neg hmem] at hp
    rcases List.mem_append.mp hp with h | h
    · exfalso
      apply hmem
      rw [List.any_eq_true]
      exact ⟨p, h, by simp [hpk]⟩
    · rw [List.mem_singleton] at h
      rw [h]

theorem dictSet_mem_of_ne (m : List (ScrapingRule × Int)) (k : ScrapingRule)
    (v : Int) (p : ScrapingRule × Int) (hp : p ∈ m) (hne : p.1 ≠ k) :
    p ∈ dictSet m k v := by
  unfold dictSet
  by_cases hmem : m.any (fun p => decide (p.1 = k))
  · rw [if_pos hmem]
    exact List.mem_map.mpr ⟨p, hp, by rw [if_neg hne]⟩
  · rw [if_neg hmem]
    exact List.mem_append.mpr (Or.inl hp)

theorem dictSet_subset_of_ne (m : List (ScrapingRule × Int)) (k : ScrapingRule)
    (v : Int) (p : ScrapingRule × Int) (hp : p ∈ dictSet m k v)
    (hne : p.1 ≠ k) : p ∈ m := by
  unfold dictSet at hp
  by_cases hmem : m.any (fun p => decide (p.1 = k))
  · rw [if_pos hmem] at hp
    obtain ⟨q, hq, hqe⟩ := List.mem_map.mp hp
    by_cases hqk : q.1 = k
    · rw [if_pos hqk] at hqe
      rw [← hqe] at hne
      simp at hne
    · rw [if_neg hqk] at hqe
      rw [← hqe]
      exact hq
  · rw [if_neg hmem] at hp
    rcases List.mem_append.mp hp with h | h
    · exact h
    · rw [List.mem_singleton] at h
      rw [h] at hne
      simp at hne

theorem dictSet_id (m : List (ScrapingRule × Int)) (k : ScrapingRule) (v : Int)
    (h1 : ∃ p ∈ m, p.1 = k) (h2 : ∀ p ∈ m, p.1 = k → p.2 = v) :
    dictSet m k v = m := by
  unfold dictSet
  have hmem : m.any (fun p => decide (p.1 = k)) := by
    obtain ⟨p, hp, hpk⟩ := h1
    rw [List.any_eq_true]
    exact ⟨p, hp, by simp [hpk]⟩
  rw [if_pos hmem]
  have hcongr : ∀ p ∈ m, (if p.1 = k then (k, v) else p) = p := by
    intro p hp
    by_cases hpk : p.1 = k
    · rw [if_pos hpk]
      have hv := h2 p hp hpk
      cases p
      simp only at hpk hv
      rw [hpk, hv]
    · rw [if_neg hpk]
  rw [List.map_congr_left hcongr]
  simp

theorem setUnion_mem_left (t s : List String) (x : String) (h : x ∈ t) :
    x ∈ setUnion t s :=
  List.mem_append.mpr (Or.inl h)

theorem setUnion_mem_right (t s : List String) (x : String) (h : x ∈ s) :
    x ∈ setUnion t s := by
  by_cases hx : x ∈ t
  · exact List.mem_append.mpr (Or.inl hx)
  · refine List.mem_append.mpr (Or.inr ?_)
    rw [List.mem_filter]
    exact ⟨h, by simp [List.contains_eq_any_beq, hx]⟩

theorem setUnion_id (t s : List String) (h : ∀ x ∈ s, x ∈ t) :
    setUnion t s = t := by
  unfold setUnion
  have hnil : s.filter (fun x => !(t.contains x)) = [] := by
    rw [List.filter_eq_nil_iff]
    intro a ha
    simp [List.contains_eq_any_beq, h a ha]
  rw [hnil, List.append_nil]

/-! ## `applyRule` structure lemmas (towards C5) -/

theorem applyRule_title (e : NewsRSSEntry) (r : ScrapingRule) :
    (applyRule e r).title = e.title := by
  unfold applyRule setTagsFromRule
  dsimp only
  split <;> rfl

theorem applyRule_description (e : NewsRSSEntry) (r : ScrapingRule) :
    (applyRule e r).description = e.description := by
  unfold applyRule setTagsFromRule
  dsimp only
  split <;> rfl

theorem applyRule_rule_score_map (e : NewsRSSEntry) (r : ScrapingRule) :
    (applyRule e r).rule_score_map =
      dictSet e.rule_score_map r (computeScoreByRule e.title e.description r) := by
  unfold applyRule setTagsFromRule
  dsimp only
  split <;> rfl

theorem applyRule_tags (e : NewsRSSEntry) (r : ScrapingRule) :
    (applyRule e r).tags =
      if computeScoreByRule e.title e.description r > 0 then
        setUnion e.tags r.tags
      else e.tags := by
  unfold applyRule setTagsFromRule
  dsimp only
  by_cases hs : computeScoreByRule e.title e.description r > 0
  · rw [if_pos hs, if_pos hs]
  · rw [if_neg hs, if_neg hs]

theorem applyRule_tags_superset (e : NewsRSSEntry) (r : ScrapingRule)
    (x : String) (h : x ∈ e.tags) : x ∈ (applyRule e r).tags := by
  rw [applyRule_tags]
  split
  · exact setUnion_mem_left e.tags r.tags x h
  · exact h

/-- The state reached once a rule has been processed by `set_rules`: its
(deterministic) score is bound in `rule_score_map`, and its tags are in the
entry tag set whenever the score is positive. -/
def RuleDone (e : NewsRSSEntry) (r : ScrapingRule) : Prop :=
  (∃ p ∈ e.rule_score_map, p.1 = r) ∧
  (∀ p ∈ e.rule_score_map, p.1 = r →
    p.2 = computeScoreByRule e.title e.description r) ∧
  (computeScoreByRule e.title e.description r > 0 → ∀ t ∈ r.tags, t ∈ e.tags)

theorem scoreOf_applyRule (e : NewsRSSEntry) (r r2 : ScrapingRule) :
    computeScoreByRule (applyRule e r2).title (applyRule e r2).description r =
      computeScoreByRule e.title e.description r := by
  rw [applyRule_title, applyRule_description]

theorem ruleDone_applyRule_self (e : NewsRSSEntry) (r : ScrapingRule) :
    RuleDone (applyRule e r) r := by
  refine ⟨?_, ?_, ?_⟩
  · rw [applyRule_rule_score_map]
    exact dictSet_exists_key e.rule_score_map r _
  · intro p hp hpk
    rw [scoreOf_applyRule]
    rw [applyRule_rule_score_map] at hp
    exact dictSet_key_val e.rule_score_map r _ p hp hpk
  · intro hpos t ht
    rw [scoreOf_applyRule] at hpos
    rw [applyRule_tags, if_pos hpos]
    exact setUnion_mem_right e.tags r.tags t ht

theorem ruleDone_applyRule (e : NewsRSSEntry) (r r2 : ScrapingRule)
    (h : RuleDone e r) : RuleDone (applyRule e r2) r := by
  by_cases heq : r2 = r
  · subst heq
    exact ruleDone_applyRule_self e r2
  · obtain ⟨h1, h2, h3⟩ := h
    refine ⟨?_, ?_, ?_⟩
    · obtain ⟨p, hp, hpk⟩ := h1
      refine ⟨p, ?_, hpk⟩
      rw [applyRule_rule_score_map]
      exact dictSet_mem_of_ne e.rule_score_map r2 _ p hp
        (by rw [hpk]; exact fun hh => heq hh.symm)
    · intro p hp hpk
      rw [scoreOf_applyRule]
      rw [applyRule_rule_score_map] at hp
      have hpm : p ∈ e.rule_score_map :=
        dictSet_subset_of_ne e.rule_score_map r2 _ p hp
          (by rw [hpk]; exact fun hh => heq hh.symm)
      exact h2 p hpm hpk
    · intro hpos t ht
      rw [scoreOf_applyRule] at hpos
      exact applyRule_tags_superset e r2 t (h3 hpos t ht)

theorem applyRule_eq_self (e : NewsRSSEntry) (r : ScrapingRule)
    (h : RuleDone e r) : applyRule e r = e := by
  obtain ⟨h1, h2, h3⟩ := h
  unfold applyRule
  dsimp only
  rw [dictSet_id e.rule_score_map r _ h1 h2]
  unfold setTagsFromRule
  dsimp only
  by_cases hs : computeScoreByRule e.title e.description r > 0
  · rw [if_pos hs]
    rw [setUnion_id e.tags r.tags (h3 hs)]
  · rw [if_neg hs]

theorem ruleDone_setRules (rules : List ScrapingRule) :
    ∀ e r, RuleDone e r → RuleDone (setRules e rules) r := by
  induction rules with
  | nil => intro e r h; exact h
  | cons r2 rest ih =>
    intro e r h
    unfold setRules
    rw [List.foldl_cons]
    exact ih (applyRule e r2) r (ruleDone_applyRule e r r2 h)

theorem ruleDone_setRules_mem (rules : List ScrapingRule) :
    ∀ e, ∀ r ∈ rules, RuleDone (setRules e rules) r := by
  induction rules with
  | nil => intro e r h; exact absurd h (List.not_mem_nil r)
  | cons r2 rest ih =>
    intro e r h
    unfold setRules
    rw [List.foldl_cons]
    rcases List.mem_cons.mp h with heq | htail
    · subst heq
      exact ruleDone_setRules rest (applyRule e r) r (ruleDone_applyRule_self e r)
    · exact ih (applyRule e r2) r htail

theorem setRules_eq_self (rules : List ScrapingRule) :
    ∀ e, (∀ r ∈ rules, RuleDone e r) → setRules e rules = e := by
  induction rules with
  | nil => intro e _; rfl
  | cons r2 rest ih =>
    intro e h
    unfold setRules
    rw [List.foldl_cons, applyRule_eq_self e r2 (h r2 (List.mem_cons_self r2 rest))]
    exact ih e (fun r hr => h r (List.mem_cons_of_mem r2 hr))

/-! ## C5: scoring is idempotent -/

/-- C5: calling `set_rules` twice with the same rule set yields exactly the
same `rule_score_map` and the same `tags` as calling it once: each per-rule
score is a deterministic function of the preserved title and description, the
dict assignment overwrites the same key with the same score, and the tag
update is a set union that adds nothing new. -/
theorem scoring_is_idempotent (e : NewsRSSEntry) (rules : List ScrapingRule) :
    (setRules (setRules e rules) rules).rule_score_map =
        (setRules e rules).rule_score_map ∧
    (setRules (setRules e rules) rules).tags = (setRules e rules).tags := by
  have h : setRules (setRules e rules) rules = setRules e rules :=
    setRules_eq_self rules (setRules e rules) (ruleDone_setRules_mem rules e)
  rw [h]
  exact ⟨rfl, rfl⟩


/-! ## C7: the feed fetcher (`_scrape_registered_news_by_rss`) -/

/-- Model of `RssFeed` from `scraper_models.py` (the same shape as `MyFeed` in
`rss_feed_parsers.py`): one fetched and parsed feed. -/
structure RssFeed where
  title : String
  subtitle : String
  link : String
  language : String
  published_time : Int
  entries : List NewsRSSEntry
deriving DecidableEq, Repr

/-- Result of one feed-fetch task (`future_obj.result()` in
`collect_news_to_db.py`): either a parsed feed or one of the two handled
error classes `HTTPError` / `URLError`. -/
inductive FetchOutcome where
  | ok (feed : RssFeed)
  | httpError (code : Nat)
  | urlError (reason : String)

/-- One submitted feed task: the feed URL (used in the warning message) and
the outcome its future will deliver. -/
structure FeedTask where
  url : String
  outcome : FetchOutcome

/-- The warning message logged for a failing feed task. -/
def fetchWarning (url : String) : FetchOutcome → List String
  | .ok _ => []
  | .httpError code =>
      ["HTTP Error " ++ toString code ++ " for RSS feed \x27" ++ url ++ "\x27"]
  | .urlError reason =>
      ["URL Error [" ++ reason ++ "] for RSS feed \x27" ++ url ++ "\x27"]

/-- The consumer loop of `_scrape_registered_news_by_rss`
(`collect_news_to_db.py` lines 157-172), with tasks supplied in completion
order: an `HTTPError` or `URLError` from a task is logged as a warning and
the task is skipped; a successful task yields its feed.  Returns the yielded
feeds and the warnings logged. -/
def scrapeRegisteredNewsByRss : List FeedTask → List RssFeed × List String
  | [] => ([], [])
  | t :: ts =>
    match t.outcome with
    | .ok feed =>
      let r := scrapeRegisteredNewsByRss ts
      (feed :: r.1, r.2)
    | .httpError code =>
      let r := scrapeRegisteredNewsByRss ts
      (r.1, fetchWarning t.url (.httpError code) ++ r.2)
    | .urlError reason =>
      let r := scrapeRegisteredNewsByRss ts
      (r.1, fetchWarning t.url (.urlError reason) ++ r.2)

/-- Returns `true` iff the task outcome is a handled error. -/
def FeedTask.failed (t : FeedTask) : Bool :=
  match t.outcome with
  | .ok _ => false
  | .httpError _ => true
  | .urlError _ => true

/-- The feed of a successful task. -/
def FeedTask.feed? (t : FeedTask) : Option RssFeed :=
  match t.outcome with
  | .ok feed => some feed
  | .httpError _ => none
  | .urlError _ => none

/-- C7: the fetcher never propagates an `HTTPError`/`URLError` of a single
task and never drops a successful task because another failed: for every
batch it returns exactly the feeds of the successful tasks, in order, and
logs exactly one warning per failed task. -/
theorem fetcher_skips_failures_and_keeps_successes (tasks : List FeedTask) :
    (scrapeRegisteredNewsByRss tasks).1 = tasks.filterMap FeedTask.feed? ∧
    (scrapeRegisteredNewsByRss tasks).2.length =
      (tasks.filter FeedTask.failed).length := by
  induction tasks with
  | nil => exact ⟨rfl, rfl⟩
  | cons t ts ih =>
    obtain ⟨u, o⟩ := t
    cases o with
    | ok feed =>
      refine ⟨?_, ?_⟩
      · simp only [scrapeRegisteredNewsByRss, List.filterMap_cons, FeedTask.feed?]
        rw [ih.1]
      · simp only [scrapeRegisteredNewsByRss, List.filter_cons, FeedTask.failed,
          Bool.false_eq_true, if_false]
        exact ih.2
    | httpError code =>
      refine ⟨?_, ?_⟩
      · simp only [scrapeRegisteredNewsByRss, List.filterMap_cons, FeedTask.feed?]
        exact ih.1
      · simp only [scrapeRegisteredNewsByRss, List.filter_cons, FeedTask.failed,
          if_true, fetchWarning, List.length_append, List.length_cons,
          List.length_nil]
        rw [ih.2]
        omega
    | urlError reason =>
      refine ⟨?_, ?_⟩
      · simp only [scrapeRegisteredNewsByRss, List.filterMap_cons, FeedTask.feed?]
        exact ih.1
      · simp only [scrapeRegisteredNewsByRss, List.filter_cons, FeedTask.failed,
          if_true, fetchWarning, List.length_append, List.length_cons,
          List.length_nil]
        rw [ih.2]
        omega

/-! ## C6: `GoogleFeedParser._get_description` dispatch -/

/-- One candidate local-source item (`<li>` element) of a Google aggregator
entry description: the link text, the source label, the article link, and the
domain name computed from the link by `extract_domain_name_from_url`. -/
structure LocalCand where
  news_title : String
  news_source : String
  news_link : String
  domain : String
deriving DecidableEq, Repr

/-- The string built by
`_generate_description_from_local_news_source_by_parser` on success:
`(Extracted from ...)` followed by a newline and the description. -/
def formatDesc (news_source desc : String) : String :=
  "(Extracted from \x27" ++ news_source ++ "\x27)\n" ++ desc

/-- The Python exceptions arising on the modelled parse and dispatch paths. -/
inductive PyExc where
  | attributeError
  | typeError
  | keyError
deriving DecidableEq, Repr

/-- The domain keys of `parsers_registry` in `local_news_parsers.py`, in
class-definition (dict insertion) order. -/
def parsersRegistryKeys : List String :=
  ["ltn.com.tw", "cna.com.tw", "udn.com", "ettoday.net"]

/-- The inner registry loop of `GoogleFeedParser._get_description` for one
candidate: for each registry key, if the key is a substring of the candidate
domain, run the matched domain-specific extraction (`spec key link`, `none`
modelling a logged HTTP/URL error) and return its formatted result on
success; keys that do not match append the candidate to `candidates`
(the accumulator). -/
def scanRegistry (spec : String → String → Option String) (c : LocalCand) :
    List String → List LocalCand → Option String × List LocalCand
  | [], acc => (none, acc)
  | key :: rest, acc =>
    if strContains c.domain key then
      match spec key c.news_link with
      | some desc => (some (formatDesc c.news_source desc), acc)
      | none => scanRegistry spec c rest acc
    else
      scanRegistry spec c rest (acc ++ [c])

/-- The outer loop of `GoogleFeedParser._get_description` over the candidate
`<li>` items, threading the `candidates` accumulator. -/
def scanCandidates (spec : String → String → Option String)
    (registry : List String) :
    List LocalCand → List LocalCand → Option String × List LocalCand
  | [], acc => (none, acc)
  | c :: cs, acc =>
    match scanRegistry spec c registry acc with
    | (some r, acc2) => (some r, acc2)
    | (none, acc2) => scanCandidates spec registry cs acc2

/-- The final fallback loop of `GoogleFeedParser._get_description`: try the
accumulated candidates in order with `DefaultHtmlNewsParser` (`deflt link`,
`none` modelling a logged HTTP/URL error) until one succeeds. -/
def defaultScan (deflt : String → Option String) : List LocalCand → Option String
  | [] => none
  | c :: cs =>
    match deflt c.news_link with
    | some desc => some (formatDesc c.news_source desc)
    | none => defaultScan deflt cs

/-- Model of `GoogleFeedParser._get_description` (`rss_feed_parsers.py` lines
258-335): scan candidates against the registry of domain-specific
extractors; if none returned text, retry the accumulated candidates with the
default extractor.  When every candidate has failed, the source builds its
warning with a `%`-format whose template has no conversion specifier
(line 332), which raises `TypeError` on the string argument, so the
`return feed.description` on line 335 is never reached: the all-fail branch
raises instead of returning the raw description (kept as the unused
`rawDesc` parameter). -/
def googleGetDescription (registry : List String)
    (spec : String → String → Option String) (deflt : String → Option String)
    (candidates : List LocalCand) (rawDesc : String) : Except PyExc String :=
  match scanCandidates spec registry candidates [] with
  | (some r, _) => .ok r
  | (none, acc) =>
    match defaultScan deflt acc with
    | some r => .ok r
    | none => .error .typeError

theorem scanRegistry_no_match (spec : String → String → Option String)
    (c : LocalCand) :
    ∀ (reg : List String) (acc : List LocalCand),
      (∀ key ∈ reg, strContains c.domain key = false) →
      scanRegistry spec c reg acc = (none, acc ++ List.replicate reg.length c) := by
  intro reg
  induction reg with
  | nil => intro acc h; simp [scanRegistry]
  | cons key rest ih =>
    intro acc h
    rw [scanRegistry]
    rw [if_neg (by simp [h key (List.mem_cons_self key rest)])]
    rw [ih (acc ++ [c]) (fun kk hkk => h kk (List.mem_cons_of_mem key hkk))]
    simp [List.replicate_succ, List.append_assoc]

theorem scanRegistry_found (spec : String → String → Option String)
    (c : LocalCand) (k d : String)
    (hk : strContains c.domain k = true)
    (hd : spec k c.news_link = some d) :
    ∀ (pre : List String) (post : List String) (acc : List LocalCand),
      (∀ key ∈ pre, strContains c.domain key = false) →
      scanRegistry spec c (pre ++ k :: post) acc =
        (some (formatDesc c.news_source d), acc ++ List.replicate pre.length c) := by
  intro pre
  induction pre with
  | nil =>
    intro post acc _
    rw [List.nil_append, scanRegistry, if_pos hk, hd]
    simp
  | cons key rest ih =>
    intro post acc h
    rw [List.cons_append, scanRegistry]
    rw [if_neg (by simp [h key (List.mem_cons_self key rest)])]
    rw [ih post (acc ++ [c]) (fun kk hkk => h kk (List.mem_cons_of_mem key hkk))]
    simp [List.replicate_succ, List.append_assoc]

theorem scanCandidates_no_match (spec : String → String → Option String)
    (registry : List String) :
    ∀ (cands : List LocalCand) (acc : List LocalCand),
      (∀ c ∈ cands, ∀ key ∈ registry, strContains c.domain key = false) →
      scanCandidates spec registry cands acc =
        (none, acc ++ cands.flatMap (fun c => List.replicate registry.length c)) := by
  intro cands
  induction cands with
  | nil => intro acc h; simp [scanCandidates]
  | cons c cs ih =>
    intro acc h
    rw [scanCandidates]
    rw [scanRegistry_no_match spec c registry acc (h c (List.mem_cons_self c cs))]
    dsimp only
    rw [ih (acc ++ List.replicate registry.length c)
      (fun cc hcc => h cc (List.mem_cons_of_mem c hcc))]
    simp [List.flatMap_cons, List.append_assoc]

theorem defaultScan_replicate (deflt : String → Option String) (c : LocalCand) :
    ∀ (n : Nat), n ≠ 0 → ∀ (rest : List LocalCand),
      defaultScan deflt (List.replicate n c ++ rest) =
        (match deflt c.news_link with
         | some desc => some (formatDesc c.news_source desc)
         | none => defaultScan deflt rest) := by
  intro n
  induction n with
  | zero => intro h; exact absurd rfl h
  | succ n ih =>
    intro _ rest
    rw [List.replicate_succ, List.cons_append, defaultScan]
    match hdc : deflt c.news_link with
    | some desc => rfl
    | none =>
      by_cases hn : n = 0
      · subst hn
        simp
      · rw [ih hn rest]
        rw [hdc]

theorem defaultScan_flatMap (deflt : String → Option String) (n : Nat)
    (hn : n ≠ 0) :
    ∀ cands : List LocalCand,
      defaultScan deflt (cands.flatMap (fun c => List.replicate n c)) =
        defaultScan deflt cands := by
  intro cands
  induction cands with
  | nil => simp
  | cons c cs ih =>
    rw [List.flatMap_cons, defaultScan_replicate deflt c n hn]
    rw [defaultScan]
    match hdc : deflt c.news_link with
    | some desc => rfl
    | none => exact ih

/-- C6: (a) when the first two candidates of a Google aggregator entry have
domains matched by no registered extractor and the third is matched by the
registered key `k` whose extraction succeeds with text `d`, the enricher
returns exactly the formatted text of the third candidate — for every default
extractor, i.e. the default extractor is never consulted; (b) when no
registry key matches any candidate and the registry is nonempty, every
candidate is retried in order with the default extractor and the first
success is returned; when every default retry also fails, the malformed
warning `%`-format raises `TypeError` (so no raw description is returned). -/
theorem google_enrichment_fallback_order :
    (∀ (spec : String → String → Option String) (deflt : String → Option String)
        (rawDesc : String) (c1 c2 c3 : LocalCand) (pre post : List String)
        (k d : String),
      (∀ key ∈ pre ++ k :: post, strContains c1.domain key = false) →
      (∀ key ∈ pre ++ k :: post, strContains c2.domain key = false) →
      (∀ key ∈ pre, strContains c3.domain key = false) →
      strContains c3.domain k = true →
      spec k c3.news_link = some d →
      googleGetDescription (pre ++ k :: post) spec deflt [c1, c2, c3] rawDesc =
        .ok (formatDesc c3.news_source d)) ∧
    (∀ (registry : List String) (spec : String → String → Option String)
        (deflt : String → Option String) (rawDesc : String)
        (cands : List LocalCand),
      registry ≠ [] →
      (∀ c ∈ cands, ∀ key ∈ registry, strContains c.domain key = false) →
      googleGetDescription registry spec deflt cands rawDesc =
        (match defaultScan deflt cands with
         | some r => .ok r
         | none => .error .typeError)) := by
  constructor
  · intro spec deflt rawDesc c1 c2 c3 pre post k d h1 h2 hpre hk hd
    unfold googleGetDescription
    rw [scanCandidates]
    rw [scanRegistry_no_match spec c1 (pre ++ k :: post) [] h1]
    dsimp only
    rw [scanCandidates]
    rw [scanRegistry_no_match spec c2 (pre ++ k :: post) _ h2]
    dsimp only
    rw [scanCandidates]
    rw [scanRegistry_found spec c3 k d hk hd pre post _ hpre]
  · intro registry spec deflt rawDesc cands hreg h
    unfold googleGetDescription
    rw [scanCandidates_no_match spec registry cands [] h]
    dsimp only
    rw [List.nil_append]
    rw [defaultScan_flatMap deflt registry.length
      (by simpa [List.length_eq_zero] using hreg) cands]

/-- Witness for `google_enrichment_fallback_order`: part (a) with registry
[zzz, cna], two unregistered candidates and a third matching key cna whose
extraction yields body; part (b) with one unregistered candidate, once with a
default extractor that succeeds on it and once with one that fails, hitting
the TypeError branch. -/
theorem google_enrichment_fallback_order_witness :
    googleGetDescription (["zzz"] ++ "cna" :: [])
        (fun key _ => if key = "cna" then some "body" else none)
        (fun _ => none)
        [⟨"t1", "s1", "l1", "xx.tw"⟩, ⟨"t2", "s2", "l2", "yy.tw"⟩,
         ⟨"t3", "s3", "l3", "cna.com.tw"⟩] "raw" =
      .ok (formatDesc "s3" "body") ∧
    googleGetDescription ["a", "cna"] (fun _ _ => none)
        (fun link => if link = "l1" then some "dbody" else none)
        [⟨"t1", "s1", "l1", "xx.tw"⟩] "raw" =
      .ok (formatDesc "s1" "dbody") ∧
    googleGetDescription ["a", "cna"] (fun _ _ => none) (fun _ => none)
        [⟨"t1", "s1", "l1", "xx.tw"⟩] "raw" =
      .error PyExc.typeError := by
  refine ⟨?_, ?_, ?_⟩
  · exact google_enrichment_fallback_order.1
      (fun key _ => if key = "cna" then some "body" else none)
      (fun _ => none) "raw"
      ⟨"t1", "s1", "l1", "xx.tw"⟩ ⟨"t2", "s2", "l2", "yy.tw"⟩
      ⟨"t3", "s3", "l3", "cna.com.tw"⟩ ["zzz"] [] "cna" "body"
      (by decide) (by decide) (by decide) (by decide) (by decide)
  · rw [google_enrichment_fallback_order.2 ["a", "cna"] (fun _ _ => none)
      (fun link => if link = "l1" then some "dbody" else none) "raw"
      [⟨"t1", "s1", "l1", "xx.tw"⟩] (by decide) (by decide)]
    rfl
  · rw [google_enrichment_fallback_order.2 ["a", "cna"] (fun _ _ => none)
      (fun _ => none) "raw"
      [⟨"t1", "s1", "l1", "xx.tw"⟩] (by decide) (by decide)]
    rfl

/-! ## C9: `local_news_parsers.py` fallback chains -/

/-- Outcome of looking up the content attribute of a named meta tag on a page:
the tag may be absent (`find` returns `None`, so the subscript raises
`TypeError`), present without a `content` attribute (`KeyError`), or present
with a string value. -/
inductive MetaContent where
  | missing
  | noContent
  | content (s : String)
deriving DecidableEq, Repr

/-- An already-fetched article page, abstracted to the two observations the
parsers make of it: the joined text of the `<p>` descendants of
`find(tag, attrs)` (`none` when `find` returns `None`, which makes the
subsequent `findAll` raise `AttributeError`), and the meta-tag lookup for a
given meta name. -/
structure NewsPage where
  findContainer : String → List (String × String) → Option String
  meta : String → MetaContent

/-- Model of `HtmlNewsParser._get_news_content_by_meta_name`: subscripting an absent
tag raises `TypeError`; an absent `content` attribute raises `KeyError`; an
empty content string takes the warning branch, whose `%`-format expression
itself raises a `TypeError` (two placeholders, one argument) that the caller
catches; a nonempty string is returned. -/
def getNewsContentByMetaName (page : NewsPage) (metaName : String) :
    Except PyExc String :=
  match page.meta metaName with
  | .missing => .error .typeError
  | .noContent => .error .keyError
  | .content s => if s.isEmpty then .error .typeError else .ok s

/-- Model of `HtmlNewsParser._get_news_content_by_default`
(`local_news_parsers.py` lines 180-196): try the meta name description, then
Description (`TypeError`/`KeyError` caught each time), then return the fixed
placeholder string. -/
def getNewsContentByDefault (page : NewsPage) : String :=
  match getNewsContentByMetaName page "description" with
  | .ok s => s
  | .error _ =>
    match getNewsContentByMetaName page "Description" with
    | .ok s => s
    | .error _ => "<Fail to get news_content>"

/-- Model of `HtmlNewsParser._get_news_content_by_p_tags`: `find(...)` returning
`None` makes the `findAll` call raise `AttributeError`; otherwise the joined
paragraph text is returned. -/
def getNewsContentByPTags (page : NewsPage) (ancestorTag : String)
    (attrs : List (String × String)) : Except PyExc String :=
  match page.findContainer ancestorTag attrs with
  | some text => .ok text
  | none => .error .attributeError

/-- Model of `HtmlNewsParser.get_news_content` (`local_news_parsers.py` lines
122-178): with no ancestor tag, go straight to the meta fallback; otherwise
try the `<p>`-tags extraction and, on `AttributeError`, either re-raise
(`raise_error=True`) or log a warning and fall back to the meta chain. -/
def getNewsContent (page : NewsPage) (ancestorTag : Option String)
    (attrs : List (String × String)) (raiseError : Bool) :
    Except PyExc String :=
  match ancestorTag with
  | none => .ok (getNewsContentByDefault page)
  | some tag =>
    match getNewsContentByPTags page tag attrs with
    | .ok text => .ok text
    | .error e =>
      if raiseError then .error e else .ok (getNewsContentByDefault page)

/-- Model of `CnaHtmlNewsParser.get_news_content`: container `<div class=article_box>`. -/
def cnaGetNewsContent (page : NewsPage) : Except PyExc String :=
  getNewsContent page (some "div") [("class", "article_box")] false

/-- Model of `UdnHtmlNewsParser.get_news_content`: container `<div id=story_body_content>`. -/
def udnGetNewsContent (page : NewsPage) : Except PyExc String :=
  getNewsContent page (some "div") [("id", "story_body_content")] false

/-- Model of `EtodayHtmlNewsParser.get_news_content`: container `<div class=story>`. -/
def etodayGetNewsContent (page : NewsPage) : Except PyExc String :=
  getNewsContent page (some "div") [("class", "story")] false

/-- The loop of `LtnHtmlNewsParser.get_news_content` over its class-name
chain: all but the last class name are tried with `raise_error=True` and
`except AttributeError: continue`; the last is tried without `raise_error`. -/
def ltnScan (page : NewsPage) : List String → Except PyExc String
  | [] => getNewsContent page (some "div") [("class", "content")] false
  | c :: cs =>
    match getNewsContent page (some "div") [("class", c)] true with
    | .ok text => .ok text
    | .error .attributeError => ltnScan page cs
    | .error e => .error e

/-- Model of `LtnHtmlNewsParser.get_news_content` (`local_news_parsers.py` lines
257-291). -/
def ltnGetNewsContent (page : NewsPage) : Except PyExc String :=
  ltnScan page ["text", "news_content", "boxTitle", "conbox"]

theorem getNewsContent_noraise_ok (page : NewsPage) (tag : String)
    (attrs : List (String × String)) :
    ∃ s, getNewsContent page (some tag) attrs false = .ok s := by
  cases h : page.findContainer tag attrs with
  | none =>
    exact ⟨getNewsContentByDefault page,
      by simp [getNewsContent, getNewsContentByPTags, h]⟩
  | some text =>
    exact ⟨text, by simp [getNewsContent, getNewsContentByPTags, h]⟩

theorem getNewsContent_noraise_fallback (page : NewsPage) (tag : String)
    (attrs : List (String × String)) (h : page.findContainer tag attrs = none) :
    getNewsContent page (some tag) attrs false =
      .ok (getNewsContentByDefault page) := by
  simp [getNewsContent, getNewsContentByPTags, h]

theorem ltnScan_ok (page : NewsPage) :
    ∀ l : List String, ∃ s, ltnScan page l = .ok s := by
  intro l
  induction l with
  | nil => exact getNewsContent_noraise_ok page "div" [("class", "content")]
  | cons c cs ih =>
    cases h : page.findContainer "div" [("class", c)] with
    | none =>
      obtain ⟨s, hs⟩ := ih
      refine ⟨s, ?_⟩
      rw [ltnScan]
      simp only [getNewsContent, getNewsContentByPTags, h, if_pos]
      exact hs
    | some text =>
      refine ⟨text, ?_⟩
      rw [ltnScan]
      simp [getNewsContent, getNewsContentByPTags, h]

theorem ltnScan_all_fallback (page : NewsPage)
    (h : ∀ c : String, page.findContainer "div" [("class", c)] = none) :
    ∀ l : List String, ltnScan page l = .ok (getNewsContentByDefault page) := by
  intro l
  induction l with
  | nil =>
    exact getNewsContent_noraise_fallback page "div" [("class", "content")]
      (h "content")
  | cons c cs ih =>
    rw [ltnScan]
    simp only [getNewsContent, getNewsContentByPTags, h c, if_pos]
    exact ih

/-- C9: the domain-specific extractors never let a parse exception escape:
every call returns `.ok` with a string; when the known container structure is
absent, the result is the meta-description fallback chain; that chain uses
meta description, then meta Description, and returns the fixed placeholder
string when both fail. -/
theorem local_content_extraction_never_raises (page : NewsPage) :
    (∃ s, cnaGetNewsContent page = .ok s) ∧
    (∃ s, udnGetNewsContent page = .ok s) ∧
    (∃ s, etodayGetNewsContent page = .ok s) ∧
    (∃ s, ltnGetNewsContent page = .ok s) ∧
    (page.findContainer "div" [("class", "article_box")] = none →
      cnaGetNewsContent page = .ok (getNewsContentByDefault page)) ∧
    ((∀ c : String, page.findContainer "div" [("class", c)] = none) →
      ltnGetNewsContent page = .ok (getNewsContentByDefault page)) ∧
    (∀ s, getNewsContentByMetaName page "description" = .ok s →
      getNewsContentByDefault page = s) ∧
    (∀ e1 s, getNewsContentByMetaName page "description" = .error e1 →
      getNewsContentByMetaName page "Description" = .ok s →
      getNewsContentByDefault page = s) ∧
    (∀ e1 e2, getNewsContentByMetaName page "description" = .error e1 →
      getNewsContentByMetaName page "Description" = .error e2 →
      getNewsContentByDefault page = "<Fail to get news_content>") := by
  refine ⟨getNewsContent_noraise_ok page "div" [("class", "article_box")],
    getNewsContent_noraise_ok page "div" [("id", "story_body_content")],
    getNewsContent_noraise_ok page "div" [("class", "story")],
    ltnScan_ok page ["text", "news_content", "boxTitle", "conbox"],
    fun h => getNewsContent_noraise_fallback page "div"
      [("class", "article_box")] h,
    fun h => ltnScan_all_fallback page h ["text", "news_content", "boxTitle", "conbox"],
    ?_, ?_, ?_⟩
  · intro s hs
    unfold getNewsContentByDefault
    rw [hs]
  · intro e1 s h1 h2
    unfold getNewsContentByDefault
    rw [h1, h2]
  · intro e1 e2 h1 h2
    unfold getNewsContentByDefault
    rw [h1, h2]

/-- Witness for `local_content_extraction_never_raises` on a page where no
container matches and both meta lookups fail: every extractor returns the
placeholder wrapped in `.ok`. -/
theorem local_content_extraction_never_raises_witness :
    cnaGetNewsContent ⟨fun _ _ => none, fun _ => .missing⟩ =
      .ok "<Fail to get news_content>" ∧
    ltnGetNewsContent ⟨fun _ _ => none, fun _ => .missing⟩ =
      .ok "<Fail to get news_content>" := by
  have h := local_content_extraction_never_raises
    ⟨fun _ _ => none, fun _ => .missing⟩
  constructor
  · rw [h.2.2.2.2.1 rfl]
    rfl
  · rw [h.2.2.2.2.2.1 (fun c => rfl)]
    rfl
